import Mathlib

/-!
# Verification of the JWT bearer-token middleware in `main.go`

This file gives a shallow embedding of the authentication middleware
(`AuthMiddleware`), the article handler (`GetArticleByID`) and the request
pipeline wiring of `main.go`, and proves the spec's testable properties
about them.

Modelling conventions:

* Go strings are `List Char` (`Str` below); `strings.HasPrefix` and
  `strings.TrimPrefix` are translated as structural recursions `hasPref`
  and `trimPref`.
* The `golang-jwt/v5` library is not part of the repository; its behaviour
  as used by `AuthMiddleware` (compact-serialized token parsing, the
  keyfunc callback that rejects non-HMAC algorithms, HMAC signature
  verification against the returned key, and `exp`/`nbf` claim
  validation) is modelled executably: tokens are serialized with a
  concrete injective codec (`encNat`/`encStr`/...) standing in for
  base64url+JSON, and the HMAC tag is a symbolic deterministic MAC
  (`hmacTag`), which preserves exactly the flow logic the middleware
  depends on (who signed what, with which key and algorithm).
* Gin's context is modelled by the explicit `PipelineResult` record:
  the response written, the `"username"` context key, and whether the
  downstream handler ran (`c.Abort` means it did not).
-/

/-- Go strings, modelled as lists of characters. -/
abbrev Str := List Char

/-- Models `strings.HasPrefix s pre` from the Go standard library. -/
def hasPref : Str → Str → Bool
  | _, [] => true
  | [], _ :: _ => false
  | c :: s, p :: pre => c = p && hasPref s pre

/-- Models `strings.TrimPrefix s pre`: drop `pre` when it is a prefix of
`s`, otherwise return `s` unchanged. -/
def trimPref (s pre : Str) : Str :=
  if hasPref s pre then s.drop pre.length else s

/-- The literal `"Bearer "` scheme marker of `AuthMiddleware`. -/
def bearerPref : Str := "Bearer ".data

/-! ## A concrete injective serialization

The JWT wire format (base64url-encoded JSON segments) is replaced by a
concrete executable codec with the same abstract structure: a token is a
self-delimiting encoding of the algorithm and the claims followed by the
signature bytes. `encNat` writes a natural number in unary, `encStr` a
length-prefixed character-code list. -/

/-- Encode a natural number: `n` copies of `'1'` and a closing `'0'`. -/
def encNat (n : Nat) : Str := List.replicate n '1' ++ ['0']

/-- Decode one `encNat` segment, returning the value and the remainder. -/
def decNat : Str → Option (Nat × Str)
  | [] => none
  | c :: rest =>
    if c = '0' then some (0, rest)
    else if c = '1' then
      match decNat rest with
      | some (n, r) => some (n + 1, r)
      | none => none
    else none

/-- Encode a character string: its length, then each character code. -/
def encStr (s : Str) : Str :=
  encNat s.length ++ (s.map (fun c => encNat c.toNat)).flatten

/-- Decode `k` consecutive `encNat` segments. -/
def decNats : Nat → Str → Option (List Nat × Str)
  | 0, s => some ([], s)
  | k + 1, s =>
    match decNat s with
    | some (n, r) =>
      match decNats k r with
      | some (ns, r2) => some (n :: ns, r2)
      | none => none
    | none => none

/-- Decode one `encStr` segment. -/
def decStr (s : Str) : Option (Str × Str) :=
  match decNat s with
  | some (k, r) =>
    match decNats k r with
    | some (ns, r2) => some (ns.map Char.ofNat, r2)
    | none => none
  | none => none

/-- Encode an optional natural number (a tagged union). -/
def encOptNat : Option Nat → Str
  | none => encNat 0
  | some n => encNat 1 ++ encNat n

/-- Decode one `encOptNat` segment. -/
def decOptNat (s : Str) : Option (Option Nat × Str) :=
  match decNat s with
  | some (0, r) => some (none, r)
  | some (1, r) =>
    match decNat r with
    | some (n, r2) => some (some n, r2)
    | none => none
  | some (_, _) => none
  | none => none

/-! ## The token data model -/

/-- The signing algorithms of `golang-jwt/v5` relevant here: the HMAC
family (`SigningMethodHMAC`), representative asymmetric methods, and the
unsecured `"none"` method. -/
inductive Alg where
  | HS256 | HS384 | HS512
  | RS256 | ES256 | PS256 | EdDSA
  | noneAlg
deriving DecidableEq, Repr

/-- Models the type assertion `token.Method.(*jwt.SigningMethodHMAC)` in
the middleware's keyfunc: only the HS* methods are instances. -/
def Alg.isHMAC : Alg → Bool
  | .HS256 | .HS384 | .HS512 => true
  | _ => false

/-- Numeric tag used by the serialization for the `alg` header field. -/
def Alg.tag : Alg → Nat
  | .HS256 => 0 | .HS384 => 1 | .HS512 => 2
  | .RS256 => 3 | .ES256 => 4 | .PS256 => 5 | .EdDSA => 6
  | .noneAlg => 7

/-- Recover an algorithm from its tag. -/
def algOfTag : Nat → Option Alg
  | 0 => some .HS256 | 1 => some .HS384 | 2 => some .HS512
  | 3 => some .RS256 | 4 => some .ES256 | 5 => some .PS256
  | 6 => some .EdDSA | 7 => some .noneAlg
  | _ => none

/-- The `Claims` struct of `main.go`: a `username` claim plus the
registered temporal claims the validator consults (`exp`, `nbf`),
as seconds since the epoch. -/
structure Claims where
  username : Str
  exp : Option Nat
  nbf : Option Nat
deriving DecidableEq, Repr

/-- The signing input of a token: the serialized header (algorithm) and
claims, which is also the parseable part of the wire form. -/
def signingInput (alg : Alg) (c : Claims) : Str :=
  encNat alg.tag ++ encStr c.username ++ encOptNat c.exp ++ encOptNat c.nbf

/-- Symbolic HMAC: a deterministic tag over the key and the signing
input. Verification compares the transmitted signature against this
recomputed tag, exactly as `SigningMethodHMAC.Verify` does. -/
def hmacTag (key : Str) (msg : Str) : Str := encStr key ++ msg

/-- The pre-shared secret `jwtKey = []byte("minha_chave_super_secreta")`
of `main.go`. -/
def jwtKey : Str := "minha_chave_super_secreta".data

/-- A token as a trusted issuer mints it: signing input followed by the
HMAC tag under `key`. -/
def mintToken (alg : Alg) (key : Str) (c : Claims) : Str :=
  signingInput alg c ++ hmacTag key (signingInput alg c)

/-- Structural parsing of a compact token: recover the algorithm and the
claims; the remainder of the string is the transmitted signature.
`none` is a structural parse error (`jwt.ErrTokenMalformed`). -/
def parseToken (s : Str) : Option (Alg × Claims × Str) :=
  match decNat s with
  | none => none
  | some (t, r1) =>
    match algOfTag t with
    | none => none
    | some alg =>
      match decStr r1 with
      | none => none
      | some (u, r2) =>
        match decOptNat r2 with
        | none => none
        | some (e, r3) =>
          match decOptNat r3 with
          | none => none
          | some (nb, sig) => some (alg, ⟨u, e, nb⟩, sig)

/-- The keyfunc passed to `jwt.ParseWithClaims` in `AuthMiddleware`:
error out unless the method is HMAC, otherwise hand back `jwtKey`. -/
def keyfuncCheck (alg : Alg) : Option Str :=
  if alg.isHMAC then some jwtKey else none

/-- The registered-claims validation of `golang-jwt/v5`: `exp`, when
present, must lie strictly in the future; `nbf`, when present, must not. -/
def claimsValid (now : Nat) (c : Claims) : Bool :=
  (match c.exp with | none => true | some e => now < e) &&
  (match c.nbf with | none => true | some nb => nb ≤ now)

/-- The outcome of `jwt.ParseWithClaims` as consumed by the middleware:
either `err == nil && token.Valid` with the populated claims, or any
error (malformed token, keyfunc rejection, bad signature, invalid
temporal claims) — the middleware never distinguishes these. -/
inductive ParseOutcome where
  | ok (c : Claims)
  | err
deriving DecidableEq, Repr

/-- Models `jwt.ParseWithClaims(tokenString, claims, keyfunc)` followed by
the `err == nil && token.Valid` test of `AuthMiddleware`: structural
parse, keyfunc (algorithm gate), signature verification against the
returned key, then temporal claim validation. -/
def parseWithClaims (now : Nat) (s : Str) : ParseOutcome :=
  match parseToken s with
  | none => .err
  | some (alg, c, sig) =>
    match keyfuncCheck alg with
    | none => .err
    | some key =>
      if sig = hmacTag key (signingInput alg c) then
        if claimsValid now c then .ok c else .err
      else .err

/-! ## The middleware and the pipeline -/

/-- The three rejection branches of `AuthMiddleware`, in source order. -/
inductive Reason where
  | missingCredentials
  | malformedCredentials
  | invalidToken
deriving DecidableEq, Repr

/-- What `AuthMiddleware` decides for one request: abort with a
rejection, or admit and attach the username. -/
inductive AuthResult where
  | rejected (r : Reason)
  | admitted (username : Str)
deriving DecidableEq, Repr

/-- `AuthMiddleware` from `main.go`, translated branch for branch:
empty header → missing credentials; `TrimPrefix` left the header
unchanged (no `"Bearer "` prefix) → malformed; parse/validation error →
invalid token; otherwise admit with `claims.Username`. `now` is the
verification-time clock consulted by claim validation. -/
def authMiddleware (now : Nat) (authHeader : Str) : AuthResult :=
  if authHeader = [] then .rejected .missingCredentials
  else
    let tokenString := trimPref authHeader bearerPref
    if tokenString = authHeader then .rejected .malformedCredentials
    else
      match parseWithClaims now tokenString with
      | .ok c => .admitted c.username
      | .err => .rejected .invalidToken

/-- The exact JSON error message each rejection branch writes. -/
def reasonMsg : Reason → Str
  | .missingCredentials => "Cabeçalho de autorização não encontrado".data
  | .malformedCredentials => "Formato do token de autorização inválido".data
  | .invalidToken => "Token inválido".data

/-- The `Article` struct of `main.go`. -/
structure Article where
  id : Str
  title : Str
  content : Str
deriving DecidableEq, Repr

/-- A response body: either a serialized article or a JSON error object
with a single message field. -/
inductive Body where
  | articleBody (a : Article)
  | errorBody (msg : Str)
deriving DecidableEq, Repr

/-- An HTTP response: status code and body. -/
structure Response where
  status : Nat
  body : Body
deriving DecidableEq, Repr

/-- `GetArticleByID` from `main.go`: id `"1"` returns the fixed article
with status 200, anything else a 404 JSON error. -/
def getArticleByID (id : Str) : Response :=
  if id = "1".data then
    ⟨200, .articleBody ⟨"1".data, "Aprendendo Go e Swagger".data,
      "A integração é mais simples do que parece!".data⟩⟩
  else
    ⟨404, .errorBody "Artigo não encontrado".data⟩

/-- An inbound request to `/api/v1/articles/:id`: the `Authorization`
header (`none` when absent) and the `id` path parameter. -/
structure Request where
  authorization : Option Str
  pathId : Str
deriving DecidableEq, Repr

/-- Models gin's `c.GetHeader("Authorization")`: an absent header reads
as the empty string. -/
def getHeader : Option Str → Str
  | none => []
  | some v => v

/-- What one request leaves behind: the response written, the value of
the `"username"` context key, and whether the downstream handler ran
(`c.Abort()` in the middleware prevents it). -/
structure PipelineResult where
  response : Response
  contextUsername : Option Str
  handlerRan : Bool
deriving DecidableEq, Repr

/-- The route `v1.Use(AuthMiddleware()); articles.GET(":id",
GetArticleByID)` of `main.go`: run the middleware; a rejection writes a
401 JSON error and aborts, an admission sets the context key and runs
the handler. -/
def handleRequest (now : Nat) (req : Request) : PipelineResult :=
  match authMiddleware now (getHeader req.authorization) with
  | .rejected r => ⟨⟨401, .errorBody (reasonMsg r)⟩, none, false⟩
  | .admitted u => ⟨getArticleByID req.pathId, some u, true⟩

/-! ## Codec round-trip lemmas -/

theorem encNat_succ (n : Nat) : encNat (n + 1) = '1' :: encNat n := by
  simp [encNat, List.replicate_succ]

theorem decNat_encNat (n : Nat) (rest : Str) :
    decNat (encNat n ++ rest) = some (n, rest) := by
  induction n with
  | zero => rfl
  | succ n ih =>
    rw [encNat_succ, List.cons_append]
    simp only [decNat]
    rw [if_neg (by decide)]
    simp only [if_true, ih]

theorem decNats_flatten (ns : List Nat) (rest : Str) :
    decNats ns.length ((ns.map encNat).flatten ++ rest) = some (ns, rest) := by
  induction ns with
  | nil => simp [decNats]
  | cons n ns ih => simp [decNats, List.append_assoc, decNat_encNat, ih]

theorem decStr_encStr (s : Str) (rest : Str) :
    decStr (encStr s ++ rest) = some (s, rest) := by
  have hmap : s.map (fun c => encNat c.toNat) = (s.map Char.toNat).map encNat := by
    simp [List.map_map]
  have hlen : s.length = (s.map Char.toNat).length := by simp
  rw [encStr, hmap, hlen, List.append_assoc]
  simp only [decStr, decNat_encNat, decNats_flatten]
  simp [List.map_map, Function.comp_def, Char.ofNat_toNat]

theorem decOptNat_encOptNat (o : Option Nat) (rest : Str) :
    decOptNat (encOptNat o ++ rest) = some (o, rest) := by
  cases o with
  | none => simp [encOptNat, decOptNat, decNat_encNat]
  | some n => simp [encOptNat, decOptNat, List.append_assoc, decNat_encNat]

theorem encStr_inj (a b : Str) (h : encStr a = encStr b) : a = b := by
  have ha := decStr_encStr a []
  have hb := decStr_encStr b []
  rw [h, hb] at ha
  simpa using ha.symm

theorem algOfTag_tag (a : Alg) : algOfTag a.tag = some a := by
  cases a <;> rfl

theorem parseToken_signingInput (alg : Alg) (c : Claims) (sig : Str) :
    parseToken (signingInput alg c ++ sig) = some (alg, c, sig) := by
  simp only [signingInput, List.append_assoc, parseToken, decNat_encNat,
    algOfTag_tag, decStr_encStr, decOptNat_encOptNat]

theorem parseWithClaims_mint (now : Nat) (alg : Alg) (c : Claims)
    (halg : alg.isHMAC = true) :
    parseWithClaims now (mintToken alg jwtKey c) =
      if claimsValid now c then .ok c else .err := by
  simp [mintToken, parseWithClaims, parseToken_signingInput, keyfuncCheck, halg]

/-! ## Scheme-handling lemmas -/

theorem hasPref_append (pre t : Str) : hasPref (pre ++ t) pre = true := by
  induction pre with
  | nil => cases t <;> rfl
  | cons p pre ih => simp [hasPref, ih]

theorem trimPref_append (pre t : Str) : trimPref (pre ++ t) pre = t := by
  simp [trimPref, hasPref_append]

theorem bearer_append_ne_nil (t : Str) : bearerPref ++ t ≠ [] := by
  simp [show bearerPref ≠ [] from by decide]

theorem ne_bearer_append (t : Str) : t ≠ bearerPref ++ t := by
  intro h
  have hlen := congrArg List.length h
  have h7 : bearerPref.length = 7 := rfl
  rw [List.length_append, h7] at hlen
  omega

/-- Behaviour of the middleware on a well-formed `Bearer` scheme header:
the prefix is stripped and the decision is handed to token validation. -/
theorem authMiddleware_bearer (now : Nat) (t : Str) :
    authMiddleware now (bearerPref ++ t) =
      match parseWithClaims now t with
      | .ok c => .admitted c.username
      | .err => .rejected .invalidToken := by
  have hbp : bearerPref ≠ [] := by decide
  simp [authMiddleware, hbp, trimPref_append,
    (ne_bearer_append t : t ≠ bearerPref ++ t)]

/-! ## The spec's claims -/

/-- Claim C1: for every request whose Authorization header is
`"Bearer " + T`, where `T` is a token signed with HMAC under the
verifier's pre-shared secret whose temporal claims are satisfied and
whose subject claim is `username = U`, the verifier admits the request
and the identity attached under the `"username"` key equals `U`
(mint with the correct secret, then verify, recovers the subject). -/
theorem bearer_roundtrip_admits (now : Nat) (alg : Alg) (c : Claims)
    (halg : alg.isHMAC = true) (hv : claimsValid now c = true) :
    authMiddleware now (bearerPref ++ mintToken alg jwtKey c) =
      .admitted c.username ∧
    ∀ pid, (handleRequest now
      ⟨some (bearerPref ++ mintToken alg jwtKey c), pid⟩).contextUsername =
        some c.username := by
  have h : authMiddleware now (bearerPref ++ mintToken alg jwtKey c) =
      .admitted c.username := by
    rw [authMiddleware_bearer, parseWithClaims_mint now alg c halg, if_pos hv]
  exact ⟨h, fun pid => by simp [handleRequest, getHeader, h]⟩

theorem bearer_roundtrip_admits_witness :
    Alg.isHMAC .HS256 = true ∧
    claimsValid 5 ⟨"bob".data, some 3600, none⟩ = true ∧
    authMiddleware 5 (bearerPref ++
      mintToken .HS256 jwtKey ⟨"bob".data, some 3600, none⟩) =
      .admitted "bob".data :=
  ⟨rfl, by decide,
    (bearer_roundtrip_admits 5 .HS256 ⟨"bob".data, some 3600, none⟩ rfl
      (by decide)).1⟩

/-- Claim C2: for every request whose Authorization header is
`"Bearer " + T`, where `T` declares a signing algorithm outside the
symmetric HMAC family (including `"none"` and the asymmetric methods),
the verifier rejects with `InvalidToken`, whatever the signature part
and the claims are. -/
theorem non_hmac_rejected (now : Nat) (alg : Alg) (c : Claims) (sig : Str)
    (halg : alg.isHMAC = false) :
    authMiddleware now (bearerPref ++ (signingInput alg c ++ sig)) =
      .rejected .invalidToken := by
  rw [authMiddleware_bearer]
  simp [parseWithClaims, parseToken_signingInput, keyfuncCheck, halg]

theorem non_hmac_rejected_witness :
    Alg.isHMAC .noneAlg = false ∧
    authMiddleware 0
      (bearerPref ++ (signingInput .noneAlg ⟨"alice".data, none, none⟩ ++ [])) =
      .rejected .invalidToken :=
  ⟨rfl, non_hmac_rejected 0 .noneAlg ⟨"alice".data, none, none⟩ [] rfl⟩

/-- Claim C3: a header that is exactly `"Bearer "` passes the scheme
check with the empty token string (it is not rejected as malformed) and
fails cryptographic validation of that empty string with
`InvalidToken`. -/
theorem bearer_empty_token_invalid (now : Nat) :
    trimPref bearerPref bearerPref = [] ∧
    parseWithClaims now [] = .err ∧
    authMiddleware now bearerPref = .rejected .invalidToken := by
  refine ⟨by decide, rfl, ?_⟩
  have h := authMiddleware_bearer now []
  rw [List.append_nil] at h
  simpa using h

/-- Claim C4: the processing context carries an identity under the
`"username"` key exactly when token verification admitted the request,
and every rejected request leaves no identity in the context. -/
theorem context_username_iff_admitted (now : Nat) (req : Request) :
    ((∃ u, (handleRequest now req).contextUsername = some u) ↔
      (∃ u, authMiddleware now (getHeader req.authorization) = .admitted u)) ∧
    (∀ r, authMiddleware now (getHeader req.authorization) = .rejected r →
      (handleRequest now req).contextUsername = none) := by
  cases h : authMiddleware now (getHeader req.authorization) with
  | rejected r => simp [handleRequest, h]
  | admitted u => simp [handleRequest, h]

theorem context_username_iff_admitted_witness :
    (handleRequest 0 ⟨none, "1".data⟩).contextUsername = none :=
  (context_username_iff_admitted 0 ⟨none, "1".data⟩).2 .missingCredentials rfl

/-- Claim C5 counterexample: the empty header value does not start with
`"Bearer "`, yet the verifier rejects it with `MissingCredentials`, not
`MalformedCredentials`, so the claim's quantification over all
non-`"Bearer "`-prefixed headers including the empty string fails. -/
theorem empty_header_not_malformed :
    hasPref [] bearerPref = false ∧
    authMiddleware 0 [] = .rejected .missingCredentials ∧
    authMiddleware 0 [] ≠ .rejected .malformedCredentials := by
  decide

/-- Claim C5 (amended): for every request whose Authorization header is
nonempty and does not start with the literal prefix `"Bearer "`, the
verifier rejects with `MalformedCredentials`. -/
theorem nonempty_no_bearer_malformed (now : Nat) (h : Str) (hne : h ≠ [])
    (hp : hasPref h bearerPref = false) :
    authMiddleware now h = .rejected .malformedCredentials := by
  simp [authMiddleware, hne, trimPref, hp]

theorem nonempty_no_bearer_malformed_witness :
    "Token abc".data ≠ ([] : Str) ∧
    hasPref "Token abc".data bearerPref = false ∧
    authMiddleware 0 "Token abc".data = .rejected .malformedCredentials :=
  ⟨by decide, by decide,
    nonempty_no_bearer_malformed 0 "Token abc".data (by decide) (by decide)⟩

/-- Claim C6: a request lacking an Authorization header (read as the
empty header value) is rejected with `MissingCredentials`, for every
clock value and path — the presence check decides before any scheme or
cryptographic processing can matter. -/
theorem missing_header_rejected (now : Nat) (pid : Str) :
    authMiddleware now (getHeader none) = .rejected .missingCredentials ∧
    (handleRequest now ⟨none, pid⟩).response =
      ⟨401, .errorBody (reasonMsg .missingCredentials)⟩ :=
  ⟨rfl, rfl⟩

/-- Claim C7: every cryptographic validation failure — structural parse
error, disallowed algorithm, a token signed under a different key, or
unsatisfied temporal claims — is the single `.err` outcome, and any
`.err` outcome is surfaced as `InvalidToken` with the one generic
message; the sub-reason is never distinguished. -/
theorem invalid_token_coalesced (now : Nat) (pid : Str) :
    (∀ t, parseWithClaims now t = .err →
      authMiddleware now (bearerPref ++ t) = .rejected .invalidToken ∧
      (handleRequest now ⟨some (bearerPref ++ t), pid⟩).response =
        ⟨401, .errorBody "Token inválido".data⟩) ∧
    (∀ alg c sig, alg.isHMAC = false →
      parseWithClaims now (signingInput alg c ++ sig) = .err) ∧
    (∀ alg c key, alg.isHMAC = true → key ≠ jwtKey →
      parseWithClaims now (mintToken alg key c) = .err) ∧
    (∀ alg c, alg.isHMAC = true → claimsValid now c = false →
      parseWithClaims now (mintToken alg jwtKey c) = .err) ∧
    parseWithClaims now [] = .err := by
  refine ⟨fun t ht => ?_, fun alg c sig halg => ?_,
    fun alg c key halg hkey => ?_, fun alg c halg hcv => ?_, rfl⟩
  · have h := authMiddleware_bearer now t
    rw [ht] at h
    exact ⟨h, by simp [handleRequest, getHeader, h, reasonMsg]⟩
  · simp [parseWithClaims, parseToken_signingInput, keyfuncCheck, halg]
  · have hsig : hmacTag key (signingInput alg c) ≠
        hmacTag jwtKey (signingInput alg c) := by
      intro he
      exact hkey (encStr_inj key jwtKey (List.append_cancel_right he))
    simp [mintToken, parseWithClaims, parseToken_signingInput,
      keyfuncCheck, halg, hsig]
  · rw [parseWithClaims_mint now alg c halg, if_neg]
    simp [hcv]

theorem invalid_token_coalesced_witness :
    (authMiddleware 0 (bearerPref ++ ['x']) = .rejected .invalidToken ∧
      (handleRequest 0 ⟨some (bearerPref ++ ['x']), "1".data⟩).response =
        ⟨401, .errorBody "Token inválido".data⟩) ∧
    parseWithClaims 0 (signingInput .noneAlg ⟨"eve".data, none, none⟩ ++ []) =
      .err ∧
    parseWithClaims 0
      (mintToken .HS256 "otherkey".data ⟨"eve".data, none, none⟩) = .err ∧
    parseWithClaims 100 (mintToken .HS256 jwtKey ⟨"eve".data, some 10, none⟩) =
      .err :=
  ⟨(invalid_token_coalesced 0 "1".data).1 ['x'] rfl,
    (invalid_token_coalesced 0 "1".data).2.1 .noneAlg
      ⟨"eve".data, none, none⟩ [] rfl,
    (invalid_token_coalesced 0 "1".data).2.2.1 .HS256
      ⟨"eve".data, none, none⟩ "otherkey".data rfl (by decide),
    (invalid_token_coalesced 100 "1".data).2.2.2.1 .HS256
      ⟨"eve".data, some 10, none⟩ rfl (by decide)⟩

/-- Claim C8: every verification failure terminates the request with an
HTTP 401 response carrying a JSON error body, and the downstream
article handler never executes for that request. -/
theorem rejection_aborts (now : Nat) (req : Request) (r : Reason)
    (h : authMiddleware now (getHeader req.authorization) = .rejected r) :
    (handleRequest now req).response = ⟨401, .errorBody (reasonMsg r)⟩ ∧
    (handleRequest now req).handlerRan = false := by
  simp [handleRequest, h]

theorem rejection_aborts_witness :
    (handleRequest 0 ⟨none, "1".data⟩).response =
      ⟨401, .errorBody (reasonMsg .missingCredentials)⟩ ∧
    (handleRequest 0 ⟨none, "1".data⟩).handlerRan = false :=
  rejection_aborts 0 ⟨none, "1".data⟩ .missingCredentials rfl

/-- Claim C9: an absent Authorization header and a present-but-empty one
are indistinguishable to the verifier — both read as the empty string,
take the presence-check branch, and are rejected with
`MissingCredentials`. -/
theorem absent_eq_empty_header (now : Nat) (pid : Str) :
    getHeader none = getHeader (some []) ∧
    handleRequest now ⟨none, pid⟩ = handleRequest now ⟨some [], pid⟩ ∧
    authMiddleware now (getHeader (some [])) = .rejected .missingCredentials :=
  ⟨rfl, rfl, rfl⟩

/-- Claim C10: for every authenticated request to the article endpoint,
the response is the handler's: id `"1"` yields HTTP 200 with the fixed
article, every other id yields HTTP 404 with a JSON error body. -/
theorem get_article_by_id_spec (now : Nat) (req : Request) (u : Str) :
    getArticleByID "1".data =
      ⟨200, .articleBody ⟨"1".data, "Aprendendo Go e Swagger".data,
        "A integração é mais simples do que parece!".data⟩⟩ ∧
    (∀ id, id ≠ "1".data →
      getArticleByID id = ⟨404, .errorBody "Artigo não encontrado".data⟩) ∧
    (authMiddleware now (getHeader req.authorization) = .admitted u →
      (handleRequest now req).response = getArticleByID req.pathId) := by
  refine ⟨rfl, fun id hid => ?_, fun h => ?_⟩
  · simp [getArticleByID, hid]
  · simp [handleRequest, h]

theorem get_article_by_id_spec_witness :
    getArticleByID "2".data = ⟨404, .errorBody "Artigo não encontrado".data⟩ ∧
    (handleRequest 5 ⟨some (bearerPref ++
        mintToken .HS256 jwtKey ⟨"bob".data, some 3600, none⟩),
      "1".data⟩).response = getArticleByID "1".data := by
  constructor
  · exact (get_article_by_id_spec 0 ⟨none, []⟩ []).2.1 "2".data (by decide)
  · refine (get_article_by_id_spec 5
      ⟨some (bearerPref ++
        mintToken .HS256 jwtKey ⟨"bob".data, some 3600, none⟩), "1".data⟩
      "bob".data).2.2 ?_
    show authMiddleware 5 (bearerPref ++
      mintToken .HS256 jwtKey ⟨"bob".data, some 3600, none⟩) =
      .admitted "bob".data
    rw [authMiddleware_bearer,
      parseWithClaims_mint 5 .HS256 ⟨"bob".data, some 3600, none⟩ rfl,
      if_pos (by decide)]
